import Mathlib

/-!
Shallow embedding of the benthos buffer streaming bridge
(`internal/component/buffer` Stream with its `inputLoop` / `outputLoop`)
and of the batch-buffer adapter (`public/service/buffer.go`,
`airGapBatchBuffer`).

The Go loops interact with a backend and with channels; each loop is
embedded as a deterministic function from a list of environment events
(the resolution of every `select` statement and the result of every
backend call) to the list of observable actions it performs, in order,
together with a flag saying whether the loop returned (ran its deferred
block) or is still blocked waiting for a further event.
-/

namespace BufferStream

/-- Go errors relevant to the bridge: the sentinel errors
`types.ErrTypeClosed`, `service.ErrEndOfBuffer`, `context.Canceled`,
`types.ErrAlreadyStarted`, `types.ErrTimeout`, arbitrary other errors,
and wrapping (as produced by `fmt.Errorf` with `%w`). -/
inductive Err where
  | typeClosed
  | endOfBuffer
  | canceled
  | alreadyStarted
  | timeout
  | other (s : String)
  | wrap (label : String) (inner : Err)
deriving DecidableEq, Repr

/-- Embedding of Go `errors.Is e target`: true when `e` is `target` or
wraps it (for the sentinel errors modelled here, which have no custom
`Is` method). -/
def errorsIs : Err → Err → Bool
  | Err.wrap l inner, t =>
      if Err.wrap l inner = t then true else errorsIs inner t
  | e, t => decide (e = t)

/-- A message part (`types.Part` / the data of a `service.Message`). -/
structure Part where
  data : List Nat
deriving DecidableEq, Repr

/-- A `service.Message` wrapping one part (`newMessageFromPart`). -/
structure SMessage where
  part : Part
deriving DecidableEq, Repr

/-- Embeds `newMessageFromPart` from `public/service`. -/
def newMessageFromPart (p : Part) : SMessage := ⟨p⟩

/-- Embeds `service.Message.Copy`: a defensive copy of the part data. -/
def SMessage.Copy (m : SMessage) : SMessage := ⟨⟨m.part.data⟩⟩

/-- The batch assembled by `airGapBatchBuffer.Write`:
`parts[i] = newMessageFromPart(part).Copy()` for each part of the
incoming message, in index order. -/
def airGapBatch (msg : List Part) : List SMessage :=
  msg.map (fun part => (newMessageFromPart part).Copy)

/-- Embeds `airGapBatchBuffer.Write`: assemble the copied batch and
forward it to the backend `WriteBatch`, returning its error. -/
def airGap_Write (writeBatch : List SMessage → Option Err) (msg : List Part) :
    Option Err :=
  writeBatch (airGapBatch msg)

/-- The triple returned by `airGapBatchBuffer.Read`
(`types.Message`, `buffer.AckFunc`, `error`); the ack func is
identified by a token. -/
structure ReadReturn where
  msg : Option (List Part)
  ack : Option Nat
  err : Option Err
deriving DecidableEq, Repr

/-- Embeds `airGapBatchBuffer.Read`, applied to the result
`(batch, ackFn, err)` of the backend `ReadBatch` call: on error,
translate a (possibly wrapped) `ErrEndOfBuffer` into
`types.ErrTypeClosed` and return `(nil, nil, err)`; on success, append
every batch entry's part into one message and wrap the ack func. -/
def airGap_Read (batch : List SMessage) (ackFn : Nat) (err : Option Err) :
    ReadReturn :=
  match err with
  | some e =>
      { msg := none, ack := none
        err := some (if errorsIs e Err.endOfBuffer then Err.typeClosed else e) }
  | none => { msg := some (batch.map SMessage.part), ack := some ackFn, err := none }

/-- A `types.Transaction`: a message batch paired with the identity of
its response channel. -/
structure Transaction where
  payload : List Part
  respChan : Nat
deriving DecidableEq, Repr

/-- One resolution of the input loop's iteration, as seen by
`Stream.inputLoop`: the head `select` yields a transaction (with the
backend `Write` result for its batch, and whether `CloseNowChan` fires
before the response send succeeds), or observes the upstream channel
closed, or observes the at-leisure (drain) signal. -/
inductive InEvent where
  | recv (tr : Transaction) (writeErr : Option Err) (abortDuringSend : Bool)
  | closed
  | drain
deriving DecidableEq, Repr

/-- Observable actions of the two loops, in program order: backend
calls, metric increments, log lines, channel operations. -/
inductive Action where
  | write (payload : List Part) (err : Option Err)
  | incrWriteCount
  | incrWriteErr
  | respond (ch : Nat) (err : Option Err)
  | endOfInput
  | inputDone
  | incrReadErr
  | logReadErr (e : Err)
  | throttleRetry (ok : Bool)
  | incrReadCount
  | throttleReset
  | emit (ch : Nat) (payload : List Part)
  | recvResponse (ch : Nat) (err : Option Err)
  | incrSendSuccess
  | latencyTiming
  | incrSendErr
  | ack (ch : Nat) (err : Option Err)
  | incrAckErr
  | logAckErr (e : Err)
  | closeBuffer
  | closeMessagesOut
  | outputDone
deriving DecidableEq, Repr

/-- The metric incremented after a backend `Write` returns:
`write.count` when the error is nil, `write.error` otherwise. -/
def writeMetric : Option Err → Action
  | none => Action.incrWriteCount
  | some _ => Action.incrWriteErr

/-- The loop body of `Stream.inputLoop`: for each event, either exit
(upstream closed, or drain signal), or write the batch, increment
`write.count` on success / `write.error` on failure, then send the
write's error on the transaction's response channel unless
`CloseNowChan` preempts the send (then exit at once). The `Bool` is
true when the loop returned. -/
def inputLoopGo : List InEvent → List Action × Bool
  | [] => ([], false)
  | InEvent.closed :: _ => ([], true)
  | InEvent.drain :: _ => ([], true)
  | InEvent.recv tr werr abortDuringSend :: rest =>
      if abortDuringSend then
        ([Action.write tr.payload werr, writeMetric werr], true)
      else
        let r := inputLoopGo rest
        (Action.write tr.payload werr :: writeMetric werr ::
          Action.respond tr.respChan werr :: r.1, r.2)

/-- Embeds `Stream.inputLoop` including its deferred block: when the
loop body returns, `m.buffer.EndOfInput()` runs and the wait group is
signalled. -/
def inputLoop (events : List InEvent) : List Action × Bool :=
  let r := inputLoopGo events
  if r.2 then (r.1 ++ [Action.endOfInput, Action.inputDone], true) else (r.1, false)

/-- Resolution of the response wait in `Stream.outputLoop` after a
successful downstream send: a response arrives (carrying its error and
the result of the subsequent `ackFunc` call), the response channel is
found closed, or `CloseNowChan` fires first. -/
inductive RespOutcome where
  | response (resErr : Option Err) (ackErr : Option Err)
  | chanClosed
  | abort
deriving DecidableEq, Repr

/-- Resolution of the downstream send `select` in `Stream.outputLoop`:
the transaction is sent (followed by a response-wait outcome), or
`CloseNowChan` fires first. -/
inductive SendOutcome where
  | sent (resp : RespOutcome)
  | abort
deriving DecidableEq, Repr

/-- One resolution of an output-loop iteration: the backend `Read`
fails with an error (`retryOk` is what `errThrottle.Retry()` would
return if consulted), or succeeds with a message followed by the send
resolution. -/
inductive OutEvent where
  | readErr (e : Err) (retryOk : Bool)
  | readOk (msg : List Part) (send : SendOutcome)
deriving DecidableEq, Repr

/-- The metric actions the output loop performs on receiving a
response, exactly as the source orders them: when `res.Error()` is
non-nil it increments `send.success` and records the latency timing,
otherwise it increments `send.error` (the source's branches are
inverted relative to the metric names). -/
def sendMetrics (resErr : Option Err) : List Action :=
  if resErr ≠ none then [Action.incrSendSuccess, Action.latencyTiming]
  else [Action.incrSendErr]

/-- The actions following the `ackFunc` call, from its returned error:
increment `ack.error` when non-nil, and log it unless it is
(identically) `types.ErrTypeClosed`. -/
def ackActions : Option Err → List Action
  | none => []
  | some ae =>
      Action.incrAckErr ::
        (if ae ≠ Err.typeClosed then [Action.logAckErr ae] else [])

/-- The loop body of `Stream.outputLoop`. The counter `n` numbers the
fresh response channels (`resChan := make(...)`) created by successive
successful iterations. Mirrors the source: a `Read` error other than
(identically) `types.ErrTypeClosed` and other than a wrapped
`context.Canceled` increments `read.error`, logs, and consults the
throttle; otherwise the loop exits. On a successful read it increments
`read.count`, resets the throttle, emits downstream racing
`CloseNowChan`, waits for the response racing `CloseNowChan`, then
updates the send metrics and calls the ack func with the response's
error, recording and possibly logging an ack error. -/
def outputLoopGo : Nat → List OutEvent → List Action × Bool
  | _, [] => ([], false)
  | n, OutEvent.readErr e retryOk :: rest =>
      if e ≠ Err.typeClosed ∧ errorsIs e Err.canceled = false then
        let chunk := [Action.incrReadErr, Action.logReadErr e,
          Action.throttleRetry retryOk]
        if retryOk then
          let r := outputLoopGo n rest
          (chunk ++ r.1, r.2)
        else (chunk, true)
      else ([], true)
  | n, OutEvent.readOk msg send :: rest =>
      let head := [Action.incrReadCount, Action.throttleReset]
      match send with
      | SendOutcome.abort => (head, true)
      | SendOutcome.sent resp =>
        let head := head ++ [Action.emit n msg]
        match resp with
        | RespOutcome.abort => (head, true)
        | RespOutcome.chanClosed => (head, true)
        | RespOutcome.response resErr ackErr =>
            let r := outputLoopGo (n + 1) rest
            (head ++ (Action.recvResponse n resErr :: sendMetrics resErr ++
              Action.ack n resErr :: ackActions ackErr) ++ r.1, r.2)

/-- Embeds `Stream.outputLoop` including its deferred block: when the
loop body returns, the backend is closed, the downstream channel is
closed and the wait group is signalled. -/
def outputLoop (events : List OutEvent) : List Action × Bool :=
  let r := outputLoopGo 0 events
  if r.2 then
    (r.1 ++ [Action.closeBuffer, Action.closeMessagesOut, Action.outputDone], true)
  else (r.1, false)

/-- The part of the `Stream` state that `Consume` reads and writes:
whether `messagesIn` has been assigned, and whether the two loops (and
the completion watcher) have been spawned. -/
structure StreamState where
  messagesIn : Option Nat
  loopsStarted : Bool
deriving DecidableEq, Repr

/-- A freshly constructed `Stream` (`NewStream`): no upstream channel
bound, loops not started. -/
def newStreamState : StreamState := { messagesIn := none, loopsStarted := false }

/-- Result of a `Consume` call: the returned error and the stream
state afterwards. -/
structure ConsumeResult where
  err : Option Err
  state : StreamState
deriving DecidableEq, Repr

/-- Embeds `Stream.Consume`: if `messagesIn` is already set, return
`types.ErrAlreadyStarted` and change nothing; otherwise bind the
channel, start both loops, and return nil. -/
def Stream.Consume (s : StreamState) (ch : Nat) : ConsumeResult :=
  match s.messagesIn with
  | some _ => { err := some Err.alreadyStarted, state := s }
  | none =>
      { err := none
        state := { messagesIn := some ch, loopsStarted := true } }

/-- An input-loop event on which the loop keeps iterating: a received
transaction whose response send is not preempted by `CloseNowChan`. -/
def InEvent.isCont : InEvent → Bool
  | InEvent.recv _ _ abortDuringSend => !abortDuringSend
  | _ => false

/-- The actions of one continuing input-loop iteration. -/
def inChunk : InEvent → List Action
  | InEvent.recv tr werr _ =>
      [Action.write tr.payload werr, writeMetric werr,
       Action.respond tr.respChan werr]
  | _ => []

/-- The actions of a sequence of continuing input-loop iterations. -/
def inChunks : List InEvent → List Action
  | [] => []
  | e :: rest => inChunk e ++ inChunks rest

/-- The response channel named by an input event, when any. -/
def eventChan : InEvent → Option Nat
  | InEvent.recv tr _ _ => some tr.respChan
  | _ => none

/-- The response channels of a list of input events. -/
def inChans (events : List InEvent) : List Nat := events.filterMap eventChan

/-- Recognizes a response sent on channel `ch`. -/
def respondsTo (ch : Nat) : Action → Bool
  | Action.respond c _ => c == ch
  | _ => false

/-- An output-loop event on which the loop keeps iterating: a
transient read failure the throttle allows to retry, or a successful
read whose transaction is sent and answered. -/
def OutEvent.isCont : OutEvent → Bool
  | OutEvent.readErr e retryOk =>
      (decide (e ≠ Err.typeClosed) && !errorsIs e Err.canceled) && retryOk
  | OutEvent.readOk _ (SendOutcome.sent (RespOutcome.response _ _)) => true
  | _ => false

/-- How many fresh response channels a single output event consumes. -/
def chanStep : OutEvent → Nat
  | OutEvent.readOk _ (SendOutcome.sent (RespOutcome.response _ _)) => 1
  | _ => 0

/-- How many fresh response channels a list of output events consumes. -/
def chanCount : List OutEvent → Nat
  | [] => 0
  | e :: rest => chanStep e + chanCount rest

/-- The actions of one continuing output-loop iteration, with `n` the
next fresh response-channel number. -/
def outChunk (n : Nat) : OutEvent → List Action
  | OutEvent.readErr e retryOk =>
      [Action.incrReadErr, Action.logReadErr e, Action.throttleRetry retryOk]
  | OutEvent.readOk msg (SendOutcome.sent (RespOutcome.response resErr ackErr)) =>
      [Action.incrReadCount, Action.throttleReset, Action.emit n msg] ++
        (Action.recvResponse n resErr :: sendMetrics resErr ++
          Action.ack n resErr :: ackActions ackErr)
  | OutEvent.readOk _ _ => []

/-- The actions of a sequence of continuing output-loop iterations. -/
def outChunks : Nat → List OutEvent → List Action
  | _, [] => []
  | n, e :: rest => outChunk n e ++ outChunks (n + chanStep e) rest

/-- Recognizes an ack performed for the transaction on channel `ch`. -/
def acksAt (ch : Nat) : Action → Bool
  | Action.ack c _ => c == ch
  | _ => false

/-- Recognizes the `EndOfInput` backend call. -/
def isEndOfInput : Action → Bool
  | Action.endOfInput => true
  | _ => false

/-- Recognizes the input loop's wait-group completion signal. -/
def isInputDone : Action → Bool
  | Action.inputDone => true
  | _ => false

theorem respondsTo_writeMetric (ch : Nat) (w : Option Err) :
    respondsTo ch (writeMetric w) = false := by
  cases w <;> rfl

theorem isEndOfInput_writeMetric (w : Option Err) :
    isEndOfInput (writeMetric w) = false := by
  cases w <;> rfl

theorem isInputDone_writeMetric (w : Option Err) :
    isInputDone (writeMetric w) = false := by
  cases w <;> rfl

theorem inputLoopGo_append (pre rest : List InEvent)
    (h : ∀ e ∈ pre, e.isCont = true) :
    inputLoopGo (pre ++ rest)
      = (inChunks pre ++ (inputLoopGo rest).1, (inputLoopGo rest).2) := by
  induction pre with
  | nil => simp [inChunks]
  | cons e pre ih =>
      have he : e.isCont = true := h e (by simp)
      have hpre : ∀ x ∈ pre, x.isCont = true := fun x hx => h x (by simp [hx])
      cases e with
      | closed => simp [InEvent.isCont] at he
      | drain => simp [InEvent.isCont] at he
      | recv tr werr ab =>
          simp [InEvent.isCont] at he
          subst he
          simp [inputLoopGo, inChunks, inChunk, ih hpre]

theorem inChans_closed (rest : List InEvent) :
    inChans (InEvent.closed :: rest) = inChans rest := rfl

theorem inChans_drain (rest : List InEvent) :
    inChans (InEvent.drain :: rest) = inChans rest := rfl

theorem inChans_recv (tr : Transaction) (w : Option Err) (ab : Bool)
    (rest : List InEvent) :
    inChans (InEvent.recv tr w ab :: rest) = tr.respChan :: inChans rest := rfl

theorem inChunks_resp_zero (events : List InEvent) (ch : Nat)
    (h : ch ∉ inChans events) :
    (inChunks events).countP (respondsTo ch) = 0 := by
  induction events with
  | nil => simp [inChunks]
  | cons e rest ih =>
      cases e with
      | closed =>
          rw [inChans_closed] at h
          simpa [inChunks, inChunk] using ih h
      | drain =>
          rw [inChans_drain] at h
          simpa [inChunks, inChunk] using ih h
      | recv tr werr ab =>
          rw [inChans_recv] at h
          simp only [List.mem_cons, not_or] at h
          have h1 : (tr.respChan == ch) = false := by
            simp [Ne.symm h.1]
          cases werr <;>
            simp [inChunks, inChunk, List.countP_cons, respondsTo,
              writeMetric, h1, ih h.2]

theorem inputLoopGo_resp_zero (events : List InEvent) (ch : Nat)
    (h : ch ∉ inChans events) :
    ((inputLoopGo events).1).countP (respondsTo ch) = 0 := by
  induction events with
  | nil => simp [inputLoopGo]
  | cons e rest ih =>
      cases e with
      | closed => simp [inputLoopGo]
      | drain => simp [inputLoopGo]
      | recv tr werr ab =>
          rw [inChans_recv] at h
          simp only [List.mem_cons, not_or] at h
          have h1 : (tr.respChan == ch) = false := by
            simp [Ne.symm h.1]
          have h2 := ih h.2
          cases ab <;> cases werr <;>
            simp [inputLoopGo, List.countP_cons, respondsTo,
              writeMetric, h1, h2]

theorem inputLoopGo_no_endOfInput (events : List InEvent) :
    ((inputLoopGo events).1).countP isEndOfInput = 0
      ∧ ((inputLoopGo events).1).countP isInputDone = 0 := by
  induction events with
  | nil => simp [inputLoopGo]
  | cons e rest ih =>
      cases e with
      | closed => simp [inputLoopGo]
      | drain => simp [inputLoopGo]
      | recv tr werr ab =>
          cases ab <;> cases werr <;>
            simp [inputLoopGo, List.countP_cons, isEndOfInput, isInputDone,
              writeMetric, ih.1, ih.2]

theorem inChans_append (a b : List InEvent) :
    inChans (a ++ b) = inChans a ++ inChans b := by
  simp [inChans, List.filterMap_append]

/-- C1: every transaction the input loop receives from upstream gets
exactly one response on its response channel, carrying exactly the
error that the backend `Write` call for its batch returned, and the
response send happens strictly after that `Write` call returns (the
write action precedes the respond action in the loop's action trace);
when the close-now signal preempts the response send, no response is
ever sent on that channel and the loop exits immediately, running only
its deferred block. -/
theorem c1_input_loop_responses (pre post : List InEvent) (tr : Transaction)
    (werr : Option Err) (ab : Bool)
    (hpre : ∀ e ∈ pre, e.isCont = true)
    (hnodup : (inChans (pre ++ InEvent.recv tr werr ab :: post)).Nodup) :
    (ab = false →
      ∃ A B, (inputLoop (pre ++ InEvent.recv tr werr ab :: post)).1
          = A ++ Action.write tr.payload werr :: writeMetric werr ::
              Action.respond tr.respChan werr :: B
        ∧ A.countP (respondsTo tr.respChan) = 0
        ∧ B.countP (respondsTo tr.respChan) = 0)
    ∧ (ab = true →
      inputLoop (pre ++ InEvent.recv tr werr ab :: post)
          = (inChunks pre ++ [Action.write tr.payload werr, writeMetric werr,
              Action.endOfInput, Action.inputDone], true)
        ∧ ((inputLoop (pre ++ InEvent.recv tr werr ab :: post)).1).countP
            (respondsTo tr.respChan) = 0) := by
  rw [inChans_append, inChans_recv] at hnodup
  obtain ⟨hn1, hn2, hdisj⟩ := List.nodup_append.mp hnodup
  have hA : tr.respChan ∉ inChans pre := fun hmem =>
    hdisj hmem (List.mem_cons_self _ _)
  have hB : tr.respChan ∉ inChans post := (List.nodup_cons.mp hn2).1
  have hzeroA := inChunks_resp_zero pre tr.respChan hA
  have hzeroB := inputLoopGo_resp_zero post tr.respChan hB
  have happ := inputLoopGo_append pre (InEvent.recv tr werr ab :: post) hpre
  constructor
  · intro hab
    subst hab
    refine ⟨inChunks pre, ?_, ?_, ?_, ?_⟩
    · exact if (inputLoopGo post).2 then
        (inputLoopGo post).1 ++ [Action.endOfInput, Action.inputDone]
      else (inputLoopGo post).1
    · simp only [inputLoop, happ, inputLoopGo]
      cases hfl : (inputLoopGo post).2 <;> simp [hfl]
    · exact hzeroA
    · cases hfl : (inputLoopGo post).2 <;>
        simp [hfl, List.countP_append, hzeroB, respondsTo]
  · intro hab
    subst hab
    constructor
    · simp only [inputLoop, happ, inputLoopGo]
      simp
    · simp only [inputLoop, happ, inputLoopGo]
      cases werr <;>
        simp [List.countP_append, List.countP_cons, respondsTo, writeMetric,
          hzeroA]

/-- Witness for C1 at a concrete event sequence: one earlier
transaction, then the observed one (whose write fails), then upstream
closure. -/
theorem c1_witness :
    ∃ A B, (inputLoop ([InEvent.recv ⟨[⟨[1]⟩], 0⟩ none false] ++
        InEvent.recv ⟨[], 1⟩ (some (Err.other "boom")) false ::
          [InEvent.closed])).1
        = A ++ Action.write (Transaction.mk [] 1).payload
              (some (Err.other "boom")) ::
            writeMetric (some (Err.other "boom")) ::
            Action.respond (Transaction.mk [] 1).respChan
              (some (Err.other "boom")) :: B
      ∧ A.countP (respondsTo (Transaction.mk [] 1).respChan) = 0
      ∧ B.countP (respondsTo (Transaction.mk [] 1).respChan) = 0 :=
  (c1_input_loop_responses [InEvent.recv ⟨[⟨[1]⟩], 0⟩ none false]
    [InEvent.closed] ⟨[], 1⟩ (some (Err.other "boom")) false
    (by decide) (by decide)).1 rfl

theorem outputLoopGo_append (pre rest : List OutEvent) (n : Nat)
    (h : ∀ e ∈ pre, e.isCont = true) :
    outputLoopGo n (pre ++ rest)
      = (outChunks n pre ++ (outputLoopGo (n + chanCount pre) rest).1,
         (outputLoopGo (n + chanCount pre) rest).2) := by
  induction pre generalizing n with
  | nil => simp [outChunks, chanCount]
  | cons e pre ih =>
      have he : e.isCont = true := h e (by simp)
      have hpre : ∀ x ∈ pre, x.isCont = true := fun x hx => h x (by simp [hx])
      cases e with
      | readErr err r =>
          simp only [OutEvent.isCont, Bool.and_eq_true, Bool.not_eq_true',
            decide_eq_true_eq] at he
          obtain ⟨⟨hne, hcanc⟩, hr⟩ := he
          subst hr
          rw [List.cons_append]
          have hrec := ih n hpre
          simp [outputLoopGo, if_pos (And.intro hne hcanc), outChunks,
            outChunk, chanStep, chanCount, hrec, Nat.add_assoc]
      | readOk msgv send =>
          cases send with
          | abort => simp [OutEvent.isCont] at he
          | sent resp =>
              cases resp with
              | chanClosed => simp [OutEvent.isCont] at he
              | abort => simp [OutEvent.isCont] at he
              | response resErr ackErr =>
                  rw [List.cons_append]
                  have hrec := ih (n + 1) hpre
                  simp [outputLoopGo, outChunks, outChunk, chanStep,
                    chanCount, hrec, ← Nat.add_assoc]

theorem acksAt_sendMetrics (ch : Nat) (resErr : Option Err) :
    (sendMetrics resErr).countP (acksAt ch) = 0 := by
  cases resErr <;> simp [sendMetrics, acksAt, List.countP_cons]

theorem acksAt_ackActions (ch : Nat) (aerr : Option Err) :
    (ackActions aerr).countP (acksAt ch) = 0 := by
  cases aerr with
  | none => simp [ackActions]
  | some ae =>
      simp only [ackActions, List.countP_cons]
      split <;> simp [acksAt, List.countP_cons]

theorem outputLoopGo_ack_big (events : List OutEvent) (n ch : Nat)
    (h : ch < n) :
    ((outputLoopGo n events).1).countP (acksAt ch) = 0 := by
  induction events generalizing n with
  | nil => simp [outputLoopGo]
  | cons e rest ih =>
      cases e with
      | readErr err r =>
          by_cases hc : err ≠ Err.typeClosed ∧ errorsIs err Err.canceled = false
          · cases r <;>
              simp [outputLoopGo, if_pos hc, List.countP_cons, acksAt,
                ih n h]
          · simp [outputLoopGo, if_neg hc]
      | readOk msgv send =>
          have hne : (n == ch) = false := by
            simp [Nat.ne_of_gt h]
          cases send with
          | abort => simp [outputLoopGo, List.countP_cons, acksAt]
          | sent resp =>
              cases resp with
              | abort => simp [outputLoopGo, List.countP_cons, acksAt]
              | chanClosed => simp [outputLoopGo, List.countP_cons, acksAt]
              | response resErr ackErr =>
                  simp [outputLoopGo, List.countP_append, List.countP_cons,
                    acksAt, hne, acksAt_sendMetrics, acksAt_ackActions,
                    ih (n + 1) (Nat.lt_succ_of_lt h)]

theorem outChunks_ack_zero (events : List OutEvent) (n ch : Nat)
    (h : n + chanCount events ≤ ch) :
    (outChunks n events).countP (acksAt ch) = 0 := by
  induction events generalizing n with
  | nil => simp [outChunks]
  | cons e rest ih =>
      cases e with
      | readErr err r =>
          have hr : n + chanCount rest ≤ ch := by
            simp [chanCount, chanStep] at h
            omega
          simp [outChunks, outChunk, chanStep, List.countP_cons, acksAt,
            ih n hr]
      | readOk msgv send =>
          cases send with
          | abort =>
              have hr : n + chanCount rest ≤ ch := by
                simp [chanCount, chanStep] at h
                omega
              simp [outChunks, outChunk, chanStep, ih n hr]
          | sent resp =>
              cases resp with
              | abort =>
                  have hr : n + chanCount rest ≤ ch := by
                    simp [chanCount, chanStep] at h
                    omega
                  simp [outChunks, outChunk, chanStep, ih n hr]
              | chanClosed =>
                  have hr : n + chanCount rest ≤ ch := by
                    simp [chanCount, chanStep] at h
                    omega
                  simp [outChunks, outChunk, chanStep, ih n hr]
              | response resErr ackErr =>
                  have hstep : chanCount (OutEvent.readOk msgv
                      (SendOutcome.sent (RespOutcome.response resErr ackErr))
                        :: rest) = 1 + chanCount rest := by
                    simp [chanCount, chanStep]
                  rw [hstep] at h
                  have hne : (n == ch) = false := by
                    have : n < ch := by omega
                    simp [Nat.ne_of_lt this]
                  have hr : (n + 1) + chanCount rest ≤ ch := by omega
                  simp [outChunks, outChunk, chanStep, List.countP_append,
                    List.countP_cons, acksAt, hne, acksAt_sendMetrics,
                    acksAt_ackActions, ih (n + 1) hr]

/-- C2: for every transaction the output loop emits downstream, the
ack func bound to that read is invoked at most once — exactly once
when a response arrives on the transaction's (fresh) response channel,
and then only after that response is received and with exactly that
response's error — while if the close-now signal wins the race, or the
response channel is closed without a value, the loop exits through its
deferred block without invoking the ack func at all. -/
theorem c2_output_loop_ack (pre post : List OutEvent) (msgv : List Part)
    (resp : RespOutcome)
    (hpre : ∀ e ∈ pre, OutEvent.isCont e = true) :
    (∀ resErr ackErr, resp = RespOutcome.response resErr ackErr →
      ∃ A B, (outputLoop (pre ++
            OutEvent.readOk msgv (SendOutcome.sent resp) :: post)).1
          = A ++ Action.emit (chanCount pre) msgv ::
              Action.recvResponse (chanCount pre) resErr ::
              (sendMetrics resErr ++
                Action.ack (chanCount pre) resErr :: B)
        ∧ A.countP (acksAt (chanCount pre)) = 0
        ∧ B.countP (acksAt (chanCount pre)) = 0)
    ∧ (resp = RespOutcome.abort ∨ resp = RespOutcome.chanClosed →
      outputLoop (pre ++ OutEvent.readOk msgv (SendOutcome.sent resp) :: post)
          = (outChunks 0 pre ++ [Action.incrReadCount, Action.throttleReset,
              Action.emit (chanCount pre) msgv, Action.closeBuffer,
              Action.closeMessagesOut, Action.outputDone], true)
        ∧ ((outputLoop (pre ++
              OutEvent.readOk msgv (SendOutcome.sent resp) :: post)).1).countP
            (acksAt (chanCount pre)) = 0) := by
  have happ := outputLoopGo_append pre
    (OutEvent.readOk msgv (SendOutcome.sent resp) :: post) 0 hpre
  have hzeroA : (outChunks 0 pre).countP (acksAt (chanCount pre)) = 0 :=
    outChunks_ack_zero pre 0 (chanCount pre) (by omega)
  constructor
  · intro resErr ackErr hresp
    subst hresp
    have hzeroB : ((outputLoopGo (chanCount pre + 1) post).1).countP
        (acksAt (chanCount pre)) = 0 :=
      outputLoopGo_ack_big post (chanCount pre + 1) (chanCount pre)
        (Nat.lt_succ_self _)
    refine ⟨outChunks 0 pre ++
        [Action.incrReadCount, Action.throttleReset],
      (ackActions ackErr ++ (outputLoopGo (chanCount pre + 1) post).1) ++
        (if (outputLoopGo (chanCount pre + 1) post).2 then
          [Action.closeBuffer, Action.closeMessagesOut, Action.outputDone]
        else []), ?_, ?_, ?_⟩
    · simp only [outputLoop, happ, outputLoopGo, Nat.zero_add]
      cases hfl : (outputLoopGo (chanCount pre + 1) post).2 <;>
        simp [hfl]
    · simp [List.countP_append, List.countP_cons, acksAt, hzeroA]
    · cases hfl : (outputLoopGo (chanCount pre + 1) post).2 <;>
        simp [hfl, List.countP_append, List.countP_cons, acksAt,
          acksAt_ackActions, hzeroB]
  · intro hresp
    have hgoal : outputLoop (pre ++
          OutEvent.readOk msgv (SendOutcome.sent resp) :: post)
        = (outChunks 0 pre ++ [Action.incrReadCount, Action.throttleReset,
            Action.emit (chanCount pre) msgv, Action.closeBuffer,
            Action.closeMessagesOut, Action.outputDone], true) := by
      rcases hresp with hresp | hresp <;>
      · subst hresp
        simp only [outputLoop, happ, outputLoopGo, Nat.zero_add]
        simp
    refine ⟨hgoal, ?_⟩
    rw [hgoal]
    simp [List.countP_append, List.countP_cons, acksAt, hzeroA]

/-- Witness for C2 at a concrete event sequence: one earlier retried
read failure, then the emitted transaction whose response carries an
error and whose ack also fails. -/
theorem c2_witness :
    ∃ A B, (outputLoop ([OutEvent.readErr (Err.other "glitch") true] ++
          OutEvent.readOk [⟨[7]⟩] (SendOutcome.sent
            (RespOutcome.response (some (Err.other "down")) (some Err.typeClosed)))
            :: [OutEvent.readErr Err.typeClosed true])).1
        = A ++ Action.emit (chanCount [OutEvent.readErr (Err.other "glitch") true])
              [⟨[7]⟩] ::
            Action.recvResponse
              (chanCount [OutEvent.readErr (Err.other "glitch") true])
              (some (Err.other "down")) ::
            (sendMetrics (some (Err.other "down")) ++
              Action.ack (chanCount [OutEvent.readErr (Err.other "glitch") true])
                (some (Err.other "down")) :: B)
      ∧ A.countP (acksAt (chanCount [OutEvent.readErr (Err.other "glitch") true])) = 0
      ∧ B.countP (acksAt (chanCount [OutEvent.readErr (Err.other "glitch") true])) = 0 :=
  (c2_output_loop_ack [OutEvent.readErr (Err.other "glitch") true]
    [OutEvent.readErr Err.typeClosed true] [⟨[7]⟩]
    (RespOutcome.response (some (Err.other "down")) (some Err.typeClosed))
    (by decide)).1 (some (Err.other "down")) (some Err.typeClosed) rfl

/-- C6: the input loop exits when it observes the upstream channel
closed or the drain (at-leisure) signal, writing no further batch in
either case — the trace is exactly the earlier iterations' actions
followed by the deferred block — and on every exit path (closure,
drain, or abort during a response send) the trace contains exactly one
end-of-input notification and exactly one loop-completion signal, as
its final two actions. -/
theorem c6_input_loop_exit :
    (∀ pre post, (∀ e ∈ pre, InEvent.isCont e = true) →
      inputLoop (pre ++ InEvent.closed :: post)
          = (inChunks pre ++ [Action.endOfInput, Action.inputDone], true)
        ∧ inputLoop (pre ++ InEvent.drain :: post)
          = (inChunks pre ++ [Action.endOfInput, Action.inputDone], true))
    ∧ (∀ events, (inputLoopGo events).2 = true →
      ((inputLoop events).1).countP isEndOfInput = 1
        ∧ ((inputLoop events).1).countP isInputDone = 1
        ∧ (inputLoop events).1
            = (inputLoopGo events).1 ++ [Action.endOfInput, Action.inputDone]) := by
  constructor
  · intro pre post hpre
    have h1 := inputLoopGo_append pre (InEvent.closed :: post) hpre
    have h2 := inputLoopGo_append pre (InEvent.drain :: post) hpre
    constructor
    · simp [inputLoop, h1, inputLoopGo]
    · simp [inputLoop, h2, inputLoopGo]
  · intro events hterm
    have hno := inputLoopGo_no_endOfInput events
    refine ⟨?_, ?_, ?_⟩ <;>
      simp [inputLoop, hterm, List.countP_append, List.countP_cons,
        isEndOfInput, isInputDone, hno.1, hno.2]

/-- Witness for C6: a drain exit after one successful transaction, and
an upstream-closure exit. -/
theorem c6_witness :
    inputLoop ([InEvent.recv ⟨[], 5⟩ none false] ++ InEvent.closed :: [])
        = (inChunks [InEvent.recv ⟨[], 5⟩ none false] ++
            [Action.endOfInput, Action.inputDone], true)
      ∧ ((inputLoop [InEvent.drain]).1).countP isEndOfInput = 1 :=
  ⟨(c6_input_loop_exit.1 [InEvent.recv ⟨[], 5⟩ none false] [] (by decide)).1,
   (c6_input_loop_exit.2 [InEvent.drain] rfl).1⟩

theorem outputLoopGo_readOk_head (pre post : List OutEvent)
    (msgv : List Part) (send : SendOutcome)
    (hpre : ∀ x ∈ pre, OutEvent.isCont x = true) :
    ∃ tail, (outputLoopGo 0 (pre ++ OutEvent.readOk msgv send :: post)).1
      = outChunks 0 pre ++ Action.incrReadCount ::
          Action.throttleReset :: tail := by
  have happ := outputLoopGo_append pre (OutEvent.readOk msgv send :: post)
    0 hpre
  cases send with
  | abort =>
      exact ⟨[], by simp [happ, outputLoopGo]⟩
  | sent resp =>
      cases resp with
      | abort =>
          exact ⟨[Action.emit (chanCount pre) msgv], by
            simp [happ, outputLoopGo]⟩
      | chanClosed =>
          exact ⟨[Action.emit (chanCount pre) msgv], by
            simp [happ, outputLoopGo]⟩
      | response resErr ackErr =>
          refine ⟨Action.emit (chanCount pre) msgv ::
            (Action.recvResponse (chanCount pre) resErr ::
              sendMetrics resErr ++
              Action.ack (chanCount pre) resErr :: ackActions ackErr) ++
            (outputLoopGo (chanCount pre + 1) post).1, ?_⟩
          simp [happ, outputLoopGo]

/-- C5: a `Read` error equal (identically) to the stream-closed error
or chain-matching context cancellation makes the output loop exit at
once with no read-error increment and no log line (only the deferred
block runs); any other `Read` error increments the read-error counter,
logs, and consults the throttle — exiting when the throttle says stop,
retrying the `Read` (continuing with the remaining events) when it
allows; and a successful `Read` resets the throttle's failure count
immediately after incrementing the read counter. -/
theorem c5_output_loop_read_errors :
    (∀ pre post e r, (∀ x ∈ pre, OutEvent.isCont x = true) →
      (e = Err.typeClosed ∨ errorsIs e Err.canceled = true →
        outputLoop (pre ++ OutEvent.readErr e r :: post)
          = (outChunks 0 pre ++ [Action.closeBuffer, Action.closeMessagesOut,
              Action.outputDone], true))
      ∧ (e ≠ Err.typeClosed → errorsIs e Err.canceled = false →
          (r = false →
            outputLoop (pre ++ OutEvent.readErr e r :: post)
              = (outChunks 0 pre ++ [Action.incrReadErr, Action.logReadErr e,
                  Action.throttleRetry false, Action.closeBuffer,
                  Action.closeMessagesOut, Action.outputDone], true))
          ∧ (r = true →
            outputLoopGo 0 (pre ++ OutEvent.readErr e r :: post)
              = (outChunks 0 pre ++ Action.incrReadErr :: Action.logReadErr e ::
                  Action.throttleRetry true ::
                    (outputLoopGo (chanCount pre) post).1,
                 (outputLoopGo (chanCount pre) post).2))))
    ∧ (∀ pre post msgv send, (∀ x ∈ pre, OutEvent.isCont x = true) →
        ∃ tail, (outputLoopGo 0 (pre ++ OutEvent.readOk msgv send :: post)).1
          = outChunks 0 pre ++ Action.incrReadCount ::
              Action.throttleReset :: tail) := by
  constructor
  · intro pre post e r hpre
    have happ := outputLoopGo_append pre (OutEvent.readErr e r :: post) 0 hpre
    constructor
    · intro hterm
      have hcond : ¬(e ≠ Err.typeClosed ∧ errorsIs e Err.canceled = false) := by
        rcases hterm with hterm | hterm
        · exact fun hc => hc.1 hterm
        · exact fun hc => by simp [hc.2] at hterm
      simp only [outputLoop, happ, outputLoopGo, Nat.zero_add, if_neg hcond]
      simp
    · intro hne hcanc
      constructor
      · intro hr
        subst hr
        simp only [outputLoop, happ, outputLoopGo, Nat.zero_add,
          if_pos (And.intro hne hcanc)]
        simp
      · intro hr
        subst hr
        simp only [happ, outputLoopGo, Nat.zero_add,
          if_pos (And.intro hne hcanc)]
        simp
  · exact fun pre post msgv send hpre =>
      outputLoopGo_readOk_head pre post msgv send hpre

/-- Witness for C5: a cancellation-wrapped read error after one
retried transient failure exits quietly; a fresh transient failure
with the throttle refusing exits after recording; a successful read
resets the throttle. -/
theorem c5_witness :
    outputLoop ([OutEvent.readErr (Err.other "glitch") true] ++
        OutEvent.readErr (Err.wrap "read" Err.canceled) false :: [])
        = (outChunks 0 [OutEvent.readErr (Err.other "glitch") true] ++
            [Action.closeBuffer, Action.closeMessagesOut,
              Action.outputDone], true)
      ∧ outputLoop ([] ++ OutEvent.readErr (Err.other "boom") false :: [])
          = (outChunks 0 [] ++ [Action.incrReadErr,
              Action.logReadErr (Err.other "boom"),
              Action.throttleRetry false, Action.closeBuffer,
              Action.closeMessagesOut, Action.outputDone], true)
      ∧ ∃ tail, (outputLoopGo 0 ([] ++
            OutEvent.readOk [] SendOutcome.abort :: [])).1
          = outChunks 0 [] ++ Action.incrReadCount ::
              Action.throttleReset :: tail :=
  ⟨(c5_output_loop_read_errors.1 [OutEvent.readErr (Err.other "glitch") true]
      [] (Err.wrap "read" Err.canceled) false (by decide)).1
      (Or.inr (by decide)),
   ((c5_output_loop_read_errors.1 [] [] (Err.other "boom") false
      (by decide)).2 (by decide) (by decide)).1 rfl,
   c5_output_loop_read_errors.2 [] [] [] SendOutcome.abort (by decide)⟩

/-- C3 (code bug): evaluating the output loop at a downstream response
carrying no error shows the source increments the send-error metric
and records no latency timing, while a response carrying a non-nil
error increments the send-success metric and records the latency — the
source's branches are inverted relative to the metric names
(`send.success` / `send.error`) and to the spec. -/
theorem c3_send_metrics_inverted :
    (outputLoop [OutEvent.readOk [⟨[0]⟩] (SendOutcome.sent
        (RespOutcome.response none none))]).1
      = [Action.incrReadCount, Action.throttleReset, Action.emit 0 [⟨[0]⟩],
         Action.recvResponse 0 none, Action.incrSendErr, Action.ack 0 none]
    ∧ (outputLoop [OutEvent.readOk [⟨[0]⟩] (SendOutcome.sent
        (RespOutcome.response (some (Err.other "down")) none))]).1
      = [Action.incrReadCount, Action.throttleReset, Action.emit 0 [⟨[0]⟩],
         Action.recvResponse 0 (some (Err.other "down")),
         Action.incrSendSuccess, Action.latencyTiming,
         Action.ack 0 (some (Err.other "down"))] := by
  decide

/-- C4: when the backend `ReadBatch` fails, the adapter's `Read`
returns no message and no ack func alongside the error; an error
chain-matching end-of-buffer is translated into the stream-closed
sentinel, and any other error is propagated unchanged. -/
theorem c4_adapter_read_error (batch : List SMessage) (ackFn : Nat) (e : Err) :
    (airGap_Read batch ackFn (some e)).msg = none
    ∧ (airGap_Read batch ackFn (some e)).ack = none
    ∧ (errorsIs e Err.endOfBuffer = true →
        (airGap_Read batch ackFn (some e)).err = some Err.typeClosed)
    ∧ (errorsIs e Err.endOfBuffer = false →
        (airGap_Read batch ackFn (some e)).err = some e) := by
  refine ⟨rfl, rfl, ?_, ?_⟩ <;> intro h <;> simp [airGap_Read, h]

/-- Witness for C4: a wrapped end-of-buffer error is translated, an
unrelated error passes through. -/
theorem c4_witness :
    (airGap_Read [] 0 (some (Err.wrap "rb" Err.endOfBuffer))).err
        = some Err.typeClosed
      ∧ (airGap_Read [] 0 (some (Err.other "oops"))).err
        = some (Err.other "oops") :=
  ⟨(c4_adapter_read_error [] 0 (Err.wrap "rb" Err.endOfBuffer)).2.2.1
      (by decide),
   (c4_adapter_read_error [] 0 (Err.other "oops")).2.2.2 (by decide)⟩

/-- C7: the adapter's `Write` builds a batch of the same length as the
incoming message whose i-th entry is a defensive copy of the i-th
message part (in index order), forwards that batch to the backend
`WriteBatch`, and returns exactly its error. -/
theorem c7_adapter_write (writeBatch : List SMessage → Option Err)
    (msg : List Part) :
    (airGapBatch msg).length = msg.length
    ∧ (∀ i : Nat, (airGapBatch msg)[i]?
        = (msg[i]?).map (fun p => (newMessageFromPart p).Copy))
    ∧ airGap_Write writeBatch msg = writeBatch (airGapBatch msg) := by
  refine ⟨by simp [airGapBatch], fun i => ?_, rfl⟩
  simp [airGapBatch, List.getElem?_map]

/-- C8: the first `Consume` call on a fresh stream binds the upstream
channel, starts the loops and returns nil; any `Consume` call on a
stream whose channel is already bound returns the already-started
error and leaves the state — the binding and its running loops —
unchanged. -/
theorem c8_consume_once (s : StreamState) (ch ch2 : Nat)
    (h : s.messagesIn = none) :
    (Stream.Consume s ch).err = none
    ∧ (Stream.Consume s ch).state.messagesIn = some ch
    ∧ (Stream.Consume s ch).state.loopsStarted = true
    ∧ (Stream.Consume (Stream.Consume s ch).state ch2).err
        = some Err.alreadyStarted
    ∧ (Stream.Consume (Stream.Consume s ch).state ch2).state
        = (Stream.Consume s ch).state
    ∧ (∀ t : StreamState, t.messagesIn ≠ none →
        Stream.Consume t ch2
          = { err := some Err.alreadyStarted, state := t }) := by
  have hs : Stream.Consume s ch
      = { err := none
          state := { messagesIn := some ch, loopsStarted := true } } := by
    simp [Stream.Consume, h]
  refine ⟨by simp [hs], by simp [hs], by simp [hs], by rw [hs]; rfl,
    by rw [hs]; rfl, ?_⟩
  intro t ht
  cases htm : t.messagesIn with
  | none => exact absurd htm ht
  | some c => simp [Stream.Consume, htm]

/-- Witness for C8 on a freshly constructed stream. -/
theorem c8_witness :
    (Stream.Consume newStreamState 3).err = none
      ∧ (Stream.Consume (Stream.Consume newStreamState 3).state 4).err
        = some Err.alreadyStarted :=
  ⟨(c8_consume_once newStreamState 3 4 rfl).1,
   (c8_consume_once newStreamState 3 4 rfl).2.2.2.1⟩

/-- C9 (counterexample to the claim as stated): one upstream
transaction whose backend `Write` fails yields a trace containing that
`Write` call but no increment of the write counter — so the write
counter is not incremented for every backend `Write` call. -/
theorem c9_counterexample :
    ((inputLoop [InEvent.recv ⟨[], 0⟩ (some (Err.other "boom")) false,
        InEvent.closed]).1).countP
        (fun a => a == Action.write [] (some (Err.other "boom"))) = 1
    ∧ ((inputLoop [InEvent.recv ⟨[], 0⟩ (some (Err.other "boom")) false,
        InEvent.closed]).1).countP
        (fun a => a == Action.incrWriteCount) = 0 := by
  decide

/-- C9 (amended): after every backend `Write` call the input loop
increments exactly one write metric — the write counter when the call
succeeded, the write-error counter when it failed; the output loop
increments the read counter exactly on successful `Read` calls and the
read-error counter exactly on transient `Read` failures. -/
theorem c9_metrics_amended :
    writeMetric none = Action.incrWriteCount
    ∧ (∀ e, writeMetric (some e) = Action.incrWriteErr)
    ∧ (∀ pre post tr werr ab, (∀ x ∈ pre, InEvent.isCont x = true) →
        ∃ tail, (inputLoopGo (pre ++ InEvent.recv tr werr ab :: post)).1
          = inChunks pre ++ Action.write tr.payload werr ::
              writeMetric werr :: tail)
    ∧ (∀ pre post msgv send, (∀ x ∈ pre, OutEvent.isCont x = true) →
        ∃ tail, (outputLoopGo 0 (pre ++ OutEvent.readOk msgv send :: post)).1
          = outChunks 0 pre ++ Action.incrReadCount :: tail)
    ∧ (∀ pre post e r, (∀ x ∈ pre, OutEvent.isCont x = true) →
        e ≠ Err.typeClosed → errorsIs e Err.canceled = false →
        ∃ tail, (outputLoopGo 0 (pre ++ OutEvent.readErr e r :: post)).1
          = outChunks 0 pre ++ Action.incrReadErr :: tail) := by
  refine ⟨rfl, fun e => rfl, ?_, ?_, ?_⟩
  · intro pre post tr werr ab hpre
    have happ := inputLoopGo_append pre (InEvent.recv tr werr ab :: post) hpre
    cases ab with
    | true => exact ⟨[], by simp [happ, inputLoopGo]⟩
    | false =>
        exact ⟨Action.respond tr.respChan werr :: (inputLoopGo post).1,
          by simp [happ, inputLoopGo]⟩
  · intro pre post msgv send hpre
    obtain ⟨tail, htail⟩ := outputLoopGo_readOk_head pre post msgv send hpre
    exact ⟨Action.throttleReset :: tail, by simp [htail]⟩
  · intro pre post e r hpre hne hcanc
    have happ := outputLoopGo_append pre (OutEvent.readErr e r :: post) 0 hpre
    cases r with
    | true =>
        exact ⟨Action.logReadErr e :: Action.throttleRetry true ::
          (outputLoopGo (chanCount pre) post).1,
          by simp [happ, outputLoopGo, if_pos (And.intro hne hcanc)]⟩
    | false =>
        exact ⟨[Action.logReadErr e, Action.throttleRetry false],
          by simp [happ, outputLoopGo, if_pos (And.intro hne hcanc)]⟩

/-- Witness for the amended C9: a failing write gets the write-error
metric, and a successful read gets the read counter. -/
theorem c9_witness :
    (∃ tail, (inputLoopGo ([] ++
        InEvent.recv ⟨[], 0⟩ (some (Err.other "boom")) false ::
          [InEvent.closed])).1
      = inChunks [] ++ Action.write (Transaction.mk [] 0).payload
          (some (Err.other "boom")) ::
          writeMetric (some (Err.other "boom")) :: tail)
    ∧ ∃ tail, (outputLoopGo 0 ([] ++
        OutEvent.readOk [] SendOutcome.abort :: [])).1
      = outChunks 0 [] ++ Action.incrReadCount :: tail :=
  ⟨c9_metrics_amended.2.2.1 [] [InEvent.closed] ⟨[], 0⟩
      (some (Err.other "boom")) false (by decide),
   c9_metrics_amended.2.2.2.1 [] [] [] SendOutcome.abort (by decide)⟩

/-- C10: the output loop's normal-termination test compares the `Read`
error to the stream-closed sentinel by identity: an error that wraps
the sentinel without being it is treated as a transient failure
(read-error increment, log line, throttle consult, retry or stop), in
contrast to the adapter, which recognizes a wrapped end-of-buffer
error by chain matching and translates it into the sentinel. -/
theorem c10_identity_comparison :
    (∀ l, Err.wrap l Err.typeClosed ≠ Err.typeClosed
      ∧ errorsIs (Err.wrap l Err.typeClosed) Err.typeClosed = true)
    ∧ (∀ l n rest,
        outputLoopGo n
            (OutEvent.readErr (Err.wrap l Err.typeClosed) true :: rest)
          = (Action.incrReadErr ::
              Action.logReadErr (Err.wrap l Err.typeClosed) ::
              Action.throttleRetry true :: (outputLoopGo n rest).1,
             (outputLoopGo n rest).2))
    ∧ (∀ l n rest,
        outputLoopGo n
            (OutEvent.readErr (Err.wrap l Err.typeClosed) false :: rest)
          = ([Action.incrReadErr,
              Action.logReadErr (Err.wrap l Err.typeClosed),
              Action.throttleRetry false], true))
    ∧ (∀ l batch ackFn,
        (airGap_Read batch ackFn (some (Err.wrap l Err.endOfBuffer))).err
          = some Err.typeClosed) := by
  have hcond : ∀ l : String, Err.wrap l Err.typeClosed ≠ Err.typeClosed
      ∧ errorsIs (Err.wrap l Err.typeClosed) Err.canceled = false := by
    intro l
    constructor
    · simp
    · simp [errorsIs]
  refine ⟨?_, ?_, ?_, ?_⟩
  · intro l
    refine ⟨(hcond l).1, ?_⟩
    simp [errorsIs]
  · intro l n rest
    obtain ⟨h1, h2⟩ := hcond l
    simp [outputLoopGo, h1, h2]
  · intro l n rest
    obtain ⟨h1, h2⟩ := hcond l
    simp [outputLoopGo, h1, h2]
  · intro l batch ackFn
    simp [airGap_Read, errorsIs]

end BufferStream
